import Mathlib

/-!
Verification of the Toss Up rules engine (`src/server/games/tossup/game.py`).

The Python game class is shallowly embedded: per-die random draws become
explicit lists of `Nat` (each the value returned by `random.randint`), the
mutable game object becomes a `GameState` record threaded through pure
functions, and every branch of the Python handlers is reproduced.  Framework
pieces that live outside the repository slice (the `Game` base class, the
action dispatcher, `TeamManager`, `BotHelper` target storage, JSON
serialization) are modelled from the specification and carry doc comments
saying so.
-/

namespace TossUp

/-- The `rules_variant` option: "Standard" or "PlayPalace" (the spec's
"Alternate"). -/
inductive Variant where
  | Standard
  | PlayPalace
deriving DecidableEq, Repr

/-- The three die face categories; the source calls them green/yellow/red,
the spec Favorable/Neutral/Unfavorable. -/
inductive Face where
  | green
  | yellow
  | red
deriving DecidableEq, Repr

/-- Classification of one `random.randint` draw, from `_action_roll`:
Standard uses `randint(1, 6)` with `roll <= 3` green, `roll <= 5` yellow,
else red; PlayPalace uses `randint(1, 3)` with `1` green, `2` yellow,
else red. -/
def classifyDie (v : Variant) (roll : Nat) : Face :=
  match v with
  | .Standard => if roll ≤ 3 then .green else if roll ≤ 5 then .yellow else .red
  | .PlayPalace => if roll = 1 then .green else if roll = 2 then .yellow else .red

/-- A roll outcome: the `{"green": g, "yellow": y, "red": r}` breakdown. -/
structure Roll where
  green : Nat
  yellow : Nat
  red : Nat
deriving DecidableEq, Repr

/-- One loop iteration of the dice loop in `_action_roll`: bump the counter
for the drawn face. -/
def countDie (v : Variant) (acc : Roll) (d : Nat) : Roll :=
  match classifyDie v d with
  | .green => { acc with green := acc.green + 1 }
  | .yellow => { acc with yellow := acc.yellow + 1 }
  | .red => { acc with red := acc.red + 1 }

/-- The dice loop of `_action_roll`: starting from zero counters, classify
each draw in turn.  `draws` lists the successive `random.randint` results,
one per die. -/
def rollDice (v : Variant) (draws : List Nat) : Roll :=
  draws.foldl (countDie v) ⟨0, 0, 0⟩

/-- Bust classification from `_action_roll`: Standard busts iff no greens and
at least one red; PlayPalace busts iff no greens and no yellows. -/
def isBust (v : Variant) (r : Roll) : Bool :=
  match v with
  | .Standard => r.green == 0 && decide (r.red > 0)
  | .PlayPalace => r.green == 0 && r.yellow == 0

/-- Per-player state (`TossUpPlayer` dataclass plus the framework `Player`
fields the game reads: `name`, `is_bot`, `is_spectator`).  The `score` field
is modelled from the spec: the source keeps each player's banked total in
`TeamManager` with `team_mode = "individual"` (one team per player name), so
a per-player ScoreLedger total is its direct projection.  `last_roll = none`
embeds the empty dict `{}`. -/
structure TossUpPlayer where
  name : String
  is_bot : Bool
  is_spectator : Bool
  turn_points : Nat
  dice_count : Nat
  last_roll : Option Roll
  score : Nat
deriving DecidableEq, Repr

/-- Whole-game state: the `TossUpGame` fields the rules engine reads and
writes.  `turn_order`/`turn_index` are modelled from the spec: the framework
keeps `turn_players` (a list the game fills with `set_turn_players`) and
`turn_index` pointing into it; we store the player names. -/
structure GameState where
  players : List TossUpPlayer
  turn_order : List String
  turn_index : Nat
  round : Nat
  status : String
  game_active : Bool
  winner : Option String
  target_score : Nat
  starting_dice : Nat
  rules_variant : Variant
deriving DecidableEq, Repr

/-- Modelled from the spec: the framework `current_player` property —
`turnIndex` points into `turnOrder` (none when the index is out of range). -/
def currentName (s : GameState) : Option String :=
  s.turn_order.get? s.turn_index

def getPlayer (s : GameState) (name : String) : Option TossUpPlayer :=
  s.players.find? (fun p => p.name = name)

/-- Mutating one player record in place: every stored player with the given
name is rewritten by `f` (names are unique in any reachable state). -/
def updatePlayer (s : GameState) (name : String) (f : TossUpPlayer → TossUpPlayer) :
    GameState :=
  { s with players := s.players.map (fun p => if p.name = name then f p else p) }

/-- Modelled from the spec: the framework `get_active_players` — the players
not marked spectator, in roster order. -/
def activePlayers (s : GameState) : List TossUpPlayer :=
  s.players.filter (fun p => !p.is_spectator)

/-- Modelled from the spec: the framework `set_turn_players` — establishes
`turnOrder` from the given players and points `turnIndex` at the first. -/
def setTurnPlayers (s : GameState) (ps : List TossUpPlayer) : GameState :=
  { s with turn_order := ps.map (fun p => p.name), turn_index := 0 }

/-- Modelled from the spec: the framework `advance_turn` — advances
`turnIndex` to the next player. -/
def advanceTurn (s : GameState) : GameState :=
  { s with turn_index := s.turn_index + 1 }

/-- Modelled from the spec: the framework `finish_game` — transition to the
terminal Finished state; the winner announced by `_on_round_end` is recorded
for the `getWinner` query. -/
def finishGame (s : GameState) (w : Option String) : GameState :=
  { s with status := "finished", game_active := false, winner := w }

/-- `_is_roll_enabled`: a reason string when the roll action is rejected,
`none` when enabled. -/
def is_roll_enabled (s : GameState) (p : TossUpPlayer) : Option String :=
  if s.status ≠ "playing" then some "action-not-playing"
  else if p.is_spectator then some "action-spectator"
  else if currentName s ≠ some p.name then some "action-not-your-turn"
  else none

/-- `_is_bank_enabled`: the roll preconditions plus `turn_points <= 0`. -/
def is_bank_enabled (s : GameState) (p : TossUpPlayer) : Option String :=
  if s.status ≠ "playing" then some "action-not-playing"
  else if p.is_spectator then some "action-spectator"
  else if currentName s ≠ some p.name then some "action-not-your-turn"
  else if p.turn_points ≤ 0 then some "tossup-need-points"
  else none

/-- `_start_turn`: reset the current player's per-turn state (no-op when
there is no current player, as in the source's early return). -/
def start_turn (s : GameState) : GameState :=
  match currentName s with
  | none => s
  | some name =>
      updatePlayer s name (fun p =>
        { p with turn_points := 0, dice_count := s.starting_dice, last_roll := none })

/-- `_start_round`: bump the round counter, refresh the turn order from the
currently active players, and start the first turn. -/
def start_round (s : GameState) : GameState :=
  let s1 := { s with round := s.round + 1 }
  start_turn (setTurnPlayers s1 (activePlayers s1))

/-- One iteration of the winner-collection loop in `_on_round_end`:
qualifiers (score at or above target) replace the list on a strictly higher
score and are appended on an equal one. -/
def winStep (target : Nat) (acc : List TossUpPlayer × Nat) (p : TossUpPlayer) :
    List TossUpPlayer × Nat :=
  if target ≤ p.score then
    if acc.2 < p.score then ([p], p.score)
    else if p.score = acc.2 then (acc.1 ++ [p], acc.2)
    else acc
  else acc

/-- The winner-collection loop of `_on_round_end` over the active players,
starting from `winners = []`, `high_score = 0`. -/
def computeWinners (target : Nat) (ps : List TossUpPlayer) : List TossUpPlayer × Nat :=
  ps.foldl (winStep target) ([], 0)

/-- `_on_round_end`: one winner finishes the game, several trigger a
tie-break (everyone active and not tied becomes a spectator, then a new
round starts), none starts the next round. -/
def on_round_end (s : GameState) : GameState :=
  let winners := (computeWinners s.target_score (activePlayers s)).1
  match winners with
  | [w] => finishGame s (some w.name)
  | [] => start_round s
  | _ =>
      let winner_names := winners.map (fun w => w.name)
      let s1 := { s with players := s.players.map (fun p =>
        if !p.is_spectator && !(winner_names.contains p.name) then
          { p with is_spectator := true } else p) }
      start_round s1

/-- `_on_turn_end`: the round ends once the last entry of the turn order has
played, otherwise the next player's turn starts. -/
def on_turn_end (s : GameState) : GameState :=
  if s.turn_order.length - 1 ≤ s.turn_index then on_round_end s
  else start_turn (advanceTurn s)

/-- `end_turn`: the bot jolt is timing-only; the state change is
`_on_turn_end`. -/
def end_turn (s : GameState) : GameState :=
  on_turn_end s

/-- `_action_roll`: classify `dice_count` fresh draws, record `last_roll`,
then either bust (zero the turn points, end the turn) or bank the greens
into `turn_points`, shrink the pool to the yellows and reds, and refresh an
empty pool to `starting_dice`.  `draws n` is the value the `n`-th
`random.randint` call of the dice loop returns.  A name that is not in the
roster leaves the state unchanged (the dispatcher only passes roster
players). -/
def action_roll (s : GameState) (name : String) (draws : Nat → Nat) : GameState :=
  match getPlayer s name with
  | none => s
  | some p =>
      let r := rollDice s.rules_variant ((List.range p.dice_count).map draws)
      let s1 := updatePlayer s name (fun q => { q with last_roll := some r })
      if isBust s.rules_variant r then
        end_turn (updatePlayer s1 name (fun q => { q with turn_points := 0 }))
      else
        updatePlayer s1 name (fun q =>
          let dc := r.yellow + r.red
          { q with turn_points := q.turn_points + r.green,
                   dice_count := if dc = 0 then s.starting_dice else dc })

/-- `_action_bank`: move the turn points into the player's ScoreLedger
total, zero them, end the turn. -/
def action_bank (s : GameState) (name : String) : GameState :=
  match getPlayer s name with
  | none => s
  | some _ =>
      end_turn (updatePlayer s name (fun q =>
        { q with score := q.score + q.turn_points, turn_points := 0 }))

/-- The only user-triggerable error class of the engine. -/
inductive GameError where
  | InvalidActionError (reason : String)
deriving DecidableEq, Repr

/-- Modelled from the spec: the framework action dispatcher — when the
action's `is_enabled` check returns a reason the action is rejected with
`InvalidActionError` and the handler is never invoked; a name outside the
roster is a wrong-player rejection.  Returns the next state and the
rejection, if any. -/
def execute_roll (s : GameState) (name : String) (draws : Nat → Nat) :
    GameState × Option GameError :=
  match getPlayer s name with
  | none => (s, some (.InvalidActionError "action-not-your-turn"))
  | some p =>
      match is_roll_enabled s p with
      | some reason => (s, some (.InvalidActionError reason))
      | none => (action_roll s name draws, none)

/-- Modelled from the spec: the framework action dispatcher for the bank
action (see `execute_roll`). -/
def execute_bank (s : GameState) (name : String) :
    GameState × Option GameError :=
  match getPlayer s name with
  | none => (s, some (.InvalidActionError "action-not-your-turn"))
  | some p =>
      match is_bank_enabled s p with
      | some reason => (s, some (.InvalidActionError reason))
      | none => (action_bank s name, none)

/-- `on_start`: enter the playing phase, set up the individual-mode teams
(fresh ScoreLedger totals), seed the turn order, reset the active players'
per-turn state, and start round 1. -/
def on_start (s : GameState) : GameState :=
  let s1 := { s with status := "playing", game_active := true, round := 0 }
  let s2 := setTurnPlayers s1 (activePlayers s1)
  let s3 := { s2 with players := s2.players.map (fun p =>
    if !p.is_spectator then
      { p with turn_points := 0, dice_count := s.starting_dice,
               last_roll := none, score := 0 }
    else p) }
  start_round s3

/-- `_setup_bot_target`, as a function of the `randint(10, 25)` base draw
`base`; the result is the value stored through `BotHelper.set_target`
(already clamped by the source's `max(0, target)`).  Opponents are the
active players other than the bot; `highest` accumulates only over
opponents at or above the target score, as in the source loop. -/
def setup_bot_target (s : GameState) (name : String) (base : Nat) : Int :=
  let others := (activePlayers s).filter (fun o => o.name ≠ name)
  let my_score : Int := ((getPlayer s name).map (fun p => (p.score : Int))).getD 0
  let someone_hit := others.any (fun o => decide (s.target_score ≤ o.score))
  let highest : Nat :=
    others.foldl (fun m o => if s.target_score ≤ o.score then max m o.score else m) 0
  let target : Int :=
    if someone_hit then (highest : Int) + 1 - my_score
    else
      let max_opp : Nat := others.foldl (fun m o => max m o.score) 0
      if (s.target_score : Int) - 20 ≤ (max_opp : Int) then 999 else (base : Int)
  max 0 target

/-- `bot_think`, as a function of the stored target (`none` right after a
reload, before `on_tick` recomputes it) and the `random.random()` draw
`p ∈ [0, 1)` deciding the banking coin flip; the source's float literals
0.55, 0.30, 0.10, 0.02 are embedded as the rationals they denote.  Returns
the chosen action id. -/
def bot_think (s : GameState) (player : TossUpPlayer) (targetStored : Option Int)
    (p : ℚ) : String :=
  let target := targetStored.getD 15
  if s.target_score ≤ player.score + player.turn_points then "bank"
  else if player.turn_points = 0 then "roll"
  else if target ≤ (player.turn_points : Int) then
    let bank_chance : ℚ :=
      if player.dice_count = 1 then 55 / 100
      else if player.dice_count = 2 then 30 / 100
      else if player.dice_count = 3 then 10 / 100
      else 2 / 100
    if p < bank_chance then "bank" else "roll"
  else "roll"

/-- Modelled from the spec: the `BotHelper` per-player target store — runtime
state, rebuilt empty after a snapshot reload, never serialized. -/
def lookupTarget (ts : List (String × Int)) (name : String) : Option Int :=
  (ts.find? (fun e => e.1 = name)).map (fun e => e.2)

/-- The state effect of `on_tick` on the target store: when the game is
active and the current player is a bot with no stored target, the target is
lazily recomputed by `_setup_bot_target` (the subsequent `BotHelper.on_tick`
dispatch is framework timing).  `base` is the `randint(10, 25)` draw the
recomputation consumes. -/
def on_tick_targets (s : GameState) (ts : List (String × Int)) (base : Nat) :
    List (String × Int) :=
  if !s.game_active then ts
  else
    match currentName s with
    | none => ts
    | some name =>
        match getPlayer s name with
        | none => ts
        | some p =>
            if p.is_bot && (lookupTarget ts name).isNone then
              (name, setup_bot_target s name base) :: ts
            else ts

/-- Modelled from the spec: the snapshot value tree.  `encode(state) ->
bytes` in the source goes through the framework's dataclass-to-JSON
serializer, which is outside the repository slice; the snapshot is modelled
as the JSON-like value that serializer writes. -/
inductive JValue where
  | jnat (n : Nat)
  | jstr (s : String)
  | jbool (b : Bool)
  | jarr (xs : List JValue)

/-- Snapshot of a `last_roll` field: the empty dict or the three counters. -/
def encodeRoll : Option Roll → JValue
  | none => .jarr []
  | some r => .jarr [.jnat r.green, .jnat r.yellow, .jnat r.red]

def decodeRoll : JValue → Option (Option Roll)
  | .jarr [] => some none
  | .jarr [.jnat g, .jnat y, .jnat r] => some (some ⟨g, y, r⟩)
  | _ => none

/-- Snapshot of one player record.  The bot's per-turn target is not a field
here: it lives only in the runtime target store and is excluded from the
snapshot. -/
def encodePlayer (p : TossUpPlayer) : JValue :=
  .jarr [.jstr p.name, .jbool p.is_bot, .jbool p.is_spectator,
         .jnat p.turn_points, .jnat p.dice_count, encodeRoll p.last_roll,
         .jnat p.score]

def decodePlayer : JValue → Option TossUpPlayer
  | .jarr [.jstr n, .jbool b, .jbool sp, .jnat tp, .jnat dc, lr, .jnat sc] =>
      (decodeRoll lr).map (fun r =>
        { name := n, is_bot := b, is_spectator := sp, turn_points := tp,
          dice_count := dc, last_roll := r, score := sc })
  | _ => none

def decodePlayers : List JValue → Option (List TossUpPlayer)
  | [] => some []
  | v :: rest =>
      match decodePlayer v, decodePlayers rest with
      | some p, some ps => some (p :: ps)
      | _, _ => none

def decodeNames : List JValue → Option (List String)
  | [] => some []
  | .jstr n :: rest => (decodeNames rest).map (fun ns => n :: ns)
  | _ => none

def encodeVariant : Variant → JValue
  | .Standard => .jstr "Standard"
  | .PlayPalace => .jstr "PlayPalace"

def decodeVariant : JValue → Option Variant
  | .jstr "Standard" => some .Standard
  | .jstr "PlayPalace" => some .PlayPalace
  | _ => none

def encodeWinner : Option String → JValue
  | none => .jarr []
  | some w => .jarr [.jstr w]

def decodeWinner : JValue → Option (Option String)
  | .jarr [] => some none
  | .jarr [.jstr w] => some (some w)
  | _ => none

/-- `encode`: the full snapshot of a game state.  Every persistent field is
written; the bot target store is not an input, so it is excluded by
construction. -/
def encode (s : GameState) : JValue :=
  .jarr [.jarr (s.players.map encodePlayer),
         .jarr (s.turn_order.map JValue.jstr),
         .jnat s.turn_index, .jnat s.round, .jstr s.status,
         .jbool s.game_active, encodeWinner s.winner,
         .jnat s.target_score, .jnat s.starting_dice,
         encodeVariant s.rules_variant]

/-- `decode`: all-or-nothing reconstruction; any malformed component makes
the whole decode fail with `none`. -/
def decode : JValue → Option GameState
  | .jarr [.jarr ps, .jarr names, .jnat ti, .jnat rd, .jstr st, .jbool ga,
           w, .jnat ts, .jnat sd, v] =>
      match decodePlayers ps, decodeNames names, decodeWinner w, decodeVariant v with
      | some players, some order, some winner, some variant =>
          some { players := players, turn_order := order, turn_index := ti,
                 round := rd, status := st, game_active := ga, winner := winner,
                 target_score := ts, starting_dice := sd, rules_variant := variant }
      | _, _, _, _ => none
  | _ => none

/-- The states a game can be in: started from some lobby roster (fresh
players have `turn_points = 0` and distinct names), then driven by any
sequence of roll and bank requests — the dispatcher inside `execute_roll` /
`execute_bank` makes rejected requests leave the state unchanged, and turn
and round transitions happen inside the accepted actions. -/
inductive Reachable : GameState → Prop where
  | start (s0 : GameState)
      (hnd : (s0.players.map (fun p => p.name)).Nodup)
      (hz : ∀ p ∈ s0.players, p.turn_points = 0) :
      Reachable (on_start s0)
  | roll (s : GameState) (name : String) (draws : Nat → Nat) :
      Reachable s → Reachable (execute_roll s name draws).1
  | bank (s : GameState) (name : String) :
      Reachable s → Reachable (execute_bank s name).1

/-- The inductive invariant behind the single-accruer property: player names
are distinct and any player holding turn points is the current player. -/
def PointsInv (s : GameState) : Prop :=
  (s.players.map (fun p => p.name)).Nodup ∧
  ∀ p ∈ s.players, p.turn_points ≠ 0 → currentName s = some p.name

/-- All turn points are zero (holds whenever a turn is being handed over). -/
def AllZero (s : GameState) : Prop :=
  ∀ p ∈ s.players, p.turn_points = 0

/-- Spec-side description of the `high_score` accumulator of
`_on_round_end`: the maximum qualifying score, folded from `h`. -/
def bestScore (target : Nat) (h : Nat) (ps : List TossUpPlayer) : Nat :=
  ps.foldl (fun m p => if target ≤ p.score then max m p.score else m) h

/-- The roll outcome `_action_roll` computes for player `p`: `dice_count`
fresh draws, classified. -/
def rollOf (s : GameState) (p : TossUpPlayer) (draws : Nat → Nat) : Roll :=
  rollDice s.rules_variant ((List.range p.dice_count).map draws)

theorem countDie_sum (v : Variant) (acc : Roll) (d : Nat) :
    (countDie v acc d).green + (countDie v acc d).yellow + (countDie v acc d).red
      = acc.green + acc.yellow + acc.red + 1 := by
  unfold countDie
  cases classifyDie v d <;> simp <;> omega

theorem rollDice_foldl_sum (v : Variant) (draws : List Nat) (acc : Roll) :
    (draws.foldl (countDie v) acc).green + (draws.foldl (countDie v) acc).yellow
        + (draws.foldl (countDie v) acc).red
      = acc.green + acc.yellow + acc.red + draws.length := by
  induction draws generalizing acc with
  | nil => simp
  | cons d rest ih =>
    simp only [List.foldl_cons, List.length_cons]
    rw [ih]
    have := countDie_sum v acc d
    omega

/-- The three counters of a roll always sum to the number of dice drawn. -/
theorem rollDice_sum (v : Variant) (draws : List Nat) :
    (rollDice v draws).green + (rollDice v draws).yellow + (rollDice v draws).red
      = draws.length := by
  unfold rollDice
  rw [rollDice_foldl_sum]
  simp

/-- C1: for every roll outcome triple, the Standard variant busts exactly
when there are no favorable faces and at least one unfavorable one (a
neutral-only roll is not a bust), and the PlayPalace (Alternate) variant
busts exactly when there are no favorable and no neutral faces. -/
theorem claim_C1_bust_verdict (r : Roll) :
    (isBust .Standard r = true ↔ r.green = 0 ∧ 0 < r.red) ∧
    (isBust .PlayPalace r = true ↔ r.green = 0 ∧ r.yellow = 0) := by
  constructor <;> simp [isBust]

/-- C2: one dice resolution always returns three counts summing exactly to
the number of dice drawn (counts are `Nat`, hence non-negative), and the
per-die face mapping is: Standard, a 6-sided draw with faces 1–3 favorable,
4–5 neutral, 6 unfavorable; PlayPalace, a 3-sided draw with one face per
category. -/
theorem claim_C2_resolve_counts (v : Variant) (draws : List Nat) :
    ((rollDice v draws).green + (rollDice v draws).yellow + (rollDice v draws).red
        = draws.length) ∧
    ((List.range 6).map (fun k => classifyDie .Standard (k + 1))
        = [.green, .green, .green, .yellow, .yellow, .red]) ∧
    ((List.range 3).map (fun k => classifyDie .PlayPalace (k + 1))
        = [.green, .yellow, .red]) :=
  ⟨rollDice_sum v draws, by decide, by decide⟩

theorem find?_name_map_update (l : List TossUpPlayer) (name n : String)
    (f : TossUpPlayer → TossUpPlayer) (hf : ∀ q, (f q).name = q.name) :
    (l.map (fun p => if p.name = name then f p else p)).find?
        (fun p => decide (p.name = n)) =
      (l.find? (fun p => decide (p.name = n))).map
        (fun p => if p.name = name then f p else p) := by
  induction l with
  | nil => rfl
  | cons p rest ih =>
    have hname : (if p.name = name then f p else p).name = p.name := by
      by_cases h : p.name = name <;> simp [h, hf]
    by_cases h1 : p.name = n
    · rw [List.map_cons]
      rw [List.find?_cons_of_pos _ (by simp only [hname]; simp [h1])]
      rw [List.find?_cons_of_pos _ (by simp [h1])]
      rfl
    · rw [List.map_cons]
      rw [List.find?_cons_of_neg _ (by simp only [hname]; simp [h1])]
      rw [List.find?_cons_of_neg _ (by simp [h1])]
      exact ih

theorem getPlayer_updatePlayer (s : GameState) (name n : String)
    (f : TossUpPlayer → TossUpPlayer) (hf : ∀ q, (f q).name = q.name) :
    getPlayer (updatePlayer s name f) n =
      (getPlayer s n).map (fun p => if p.name = name then f p else p) :=
  find?_name_map_update s.players name n f hf

theorem getPlayer_name (s : GameState) (n : String) (p : TossUpPlayer)
    (h : getPlayer s n = some p) : p.name = n := by
  unfold getPlayer at h
  simpa using List.find?_some h

theorem getPlayer_update_self (s : GameState) (n : String)
    (f : TossUpPlayer → TossUpPlayer) (hf : ∀ q, (f q).name = q.name)
    (p : TossUpPlayer) (h : getPlayer s n = some p) :
    getPlayer (updatePlayer s n f) n = some (f p) := by
  rw [getPlayer_updatePlayer s n n f hf, h]
  simp [getPlayer_name s n p h]

theorem updatePlayer_updatePlayer (s : GameState) (n : String)
    (f g : TossUpPlayer → TossUpPlayer) (hf : ∀ q, (f q).name = q.name) :
    updatePlayer (updatePlayer s n f) n g = updatePlayer s n (fun q => g (f q)) := by
  unfold updatePlayer
  simp only [List.map_map]
  have h : ∀ p ∈ s.players,
      ((fun p => if p.name = n then g p else p) ∘
        (fun p => if p.name = n then f p else p)) p
        = (fun q => if q.name = n then g (f q) else q) p := by
    intro p _
    by_cases h : p.name = n <;> simp [h, hf]
  rw [List.map_congr_left h]

theorem action_roll_eq (s : GameState) (name : String) (draws : Nat → Nat)
    (p : TossUpPlayer) (hp : getPlayer s name = some p) :
    action_roll s name draws =
      if isBust s.rules_variant (rollOf s p draws) then
        end_turn (updatePlayer s name (fun q =>
          { q with last_roll := some (rollOf s p draws), turn_points := 0 }))
      else
        updatePlayer s name (fun q =>
          { q with last_roll := some (rollOf s p draws),
                   turn_points := q.turn_points + (rollOf s p draws).green,
                   dice_count :=
                     if (rollOf s p draws).yellow + (rollOf s p draws).red = 0
                     then s.starting_dice
                     else (rollOf s p draws).yellow + (rollOf s p draws).red }) := by
  unfold action_roll rollOf
  rw [hp]
  set R := rollDice s.rules_variant ((List.range p.dice_count).map draws) with hR
  dsimp only
  rw [updatePlayer_updatePlayer s name (fun q => { q with last_roll := some R })
        (fun q => { q with turn_points := 0 }) (fun q => rfl),
      updatePlayer_updatePlayer s name (fun q => { q with last_roll := some R })
        (fun q => { q with
            turn_points := q.turn_points + R.green,
            dice_count := if R.yellow + R.red = 0 then s.starting_dice
                          else R.yellow + R.red })
        (fun q => rfl)]

/-- C3: a roll resolves the player's `dice_count` dice; when the outcome is
not a bust the favorable (green) count is added to `turn_points`, the dice
count becomes neutral + unfavorable (yellow + red), and a resulting zero is
immediately refreshed to `starting_dice` with the accrued turn points left
alone; when the outcome is a bust the turn points are zeroed and the turn
ends. -/
theorem claim_C3_roll_update (s : GameState) (name : String) (draws : Nat → Nat)
    (p : TossUpPlayer) (hp : getPlayer s name = some p) :
    (isBust s.rules_variant (rollOf s p draws) = false →
      getPlayer (action_roll s name draws) name =
        some { p with
          last_roll := some (rollOf s p draws),
          turn_points := p.turn_points + (rollOf s p draws).green,
          dice_count :=
            if (rollOf s p draws).yellow + (rollOf s p draws).red = 0
            then s.starting_dice
            else (rollOf s p draws).yellow + (rollOf s p draws).red }) ∧
    (isBust s.rules_variant (rollOf s p draws) = true →
      action_roll s name draws =
        end_turn (updatePlayer s name (fun q =>
          { q with last_roll := some (rollOf s p draws), turn_points := 0 }))) := by
  constructor
  · intro hb
    rw [action_roll_eq s name draws p hp, if_neg (by simp [hb])]
    exact getPlayer_update_self s name
      (fun q =>
        { q with last_roll := some (rollOf s p draws),
                 turn_points := q.turn_points + (rollOf s p draws).green,
                 dice_count :=
                   if (rollOf s p draws).yellow + (rollOf s p draws).red = 0
                   then s.starting_dice
                   else (rollOf s p draws).yellow + (rollOf s p draws).red })
      (fun q => rfl) p hp
  · intro hb
    rw [action_roll_eq s name draws p hp, if_pos (by simp [hb])]

/-- Witness for C3: in a concrete two-player Standard game, player A's
all-green two-die roll adds 2 turn points (3 becomes 5) and the emptied pool
is refreshed to the 10 starting dice. -/
theorem claim_C3_roll_update_witness :
    getPlayer
        (action_roll
          { players := [⟨"A", false, false, 3, 2, none, 0⟩,
                        ⟨"B", false, false, 0, 10, none, 0⟩],
            turn_order := ["A", "B"], turn_index := 0, round := 1,
            status := "playing", game_active := true, winner := none,
            target_score := 100, starting_dice := 10,
            rules_variant := .Standard }
          "A" (fun _ => 1)) "A"
      = some ⟨"A", false, false, 5, 10, some ⟨2, 0, 0⟩, 0⟩ :=
  (claim_C3_roll_update
    { players := [⟨"A", false, false, 3, 2, none, 0⟩,
                  ⟨"B", false, false, 0, 10, none, 0⟩],
      turn_order := ["A", "B"], turn_index := 0, round := 1,
      status := "playing", game_active := true, winner := none,
      target_score := 100, starting_dice := 10,
      rules_variant := .Standard }
    "A" (fun _ => 1) ⟨"A", false, false, 3, 2, none, 0⟩ (by decide)).1 (by decide)

/-- C10: rolling with an empty dice pool draws nothing, so all three counts
are zero; the PlayPalace variant classifies that as a bust (turn points
zeroed, turn ended) while the Standard variant does not bust and immediately
refreshes the pool to `starting_dice` with the turn points unchanged. -/
theorem claim_C10_empty_pool_roll (s : GameState) (name : String)
    (draws : Nat → Nat) (p : TossUpPlayer) (hp : getPlayer s name = some p)
    (hdc : p.dice_count = 0) :
    isBust .PlayPalace ⟨0, 0, 0⟩ = true ∧
    isBust .Standard ⟨0, 0, 0⟩ = false ∧
    (s.rules_variant = .PlayPalace →
      action_roll s name draws =
        end_turn (updatePlayer s name (fun q =>
          { q with last_roll := some ⟨0, 0, 0⟩, turn_points := 0 }))) ∧
    (s.rules_variant = .Standard →
      getPlayer (action_roll s name draws) name =
        some { p with last_roll := some ⟨0, 0, 0⟩,
                      dice_count := s.starting_dice }) := by
  have hroll : rollOf s p draws = ⟨0, 0, 0⟩ := by
    unfold rollOf
    rw [hdc]
    rfl
  refine ⟨rfl, rfl, ?_, ?_⟩
  · intro hv
    rw [action_roll_eq s name draws p hp, hroll, hv]
    rfl
  · intro hv
    rw [action_roll_eq s name draws p hp, hroll, hv]
    rw [if_neg (by simp [isBust])]
    exact getPlayer_update_self s name
      (fun q => { q with
        last_roll := some ⟨0, 0, 0⟩,
        turn_points := q.turn_points + (Roll.mk 0 0 0).green,
        dice_count := if (Roll.mk 0 0 0).yellow + (Roll.mk 0 0 0).red = 0
                      then s.starting_dice
                      else (Roll.mk 0 0 0).yellow + (Roll.mk 0 0 0).red })
      (fun q => rfl) p hp

/-- Witness for C10: the same empty-pool roll at a concrete state, under
each variant: PlayPalace busts, Standard refreshes to the 10 starting
dice keeping the 7 turn points. -/
theorem claim_C10_empty_pool_roll_witness :
    (action_roll
        { players := [⟨"A", false, false, 7, 0, none, 0⟩,
                      ⟨"B", false, false, 0, 10, none, 0⟩],
          turn_order := ["A", "B"], turn_index := 0, round := 1,
          status := "playing", game_active := true, winner := none,
          target_score := 100, starting_dice := 10,
          rules_variant := .PlayPalace }
        "A" (fun _ => 1) =
      end_turn (updatePlayer
        { players := [⟨"A", false, false, 7, 0, none, 0⟩,
                      ⟨"B", false, false, 0, 10, none, 0⟩],
          turn_order := ["A", "B"], turn_index := 0, round := 1,
          status := "playing", game_active := true, winner := none,
          target_score := 100, starting_dice := 10,
          rules_variant := .PlayPalace }
        "A" (fun q => { q with last_roll := some ⟨0, 0, 0⟩, turn_points := 0 }))) ∧
    (getPlayer
        (action_roll
          { players := [⟨"A", false, false, 7, 0, none, 0⟩,
                        ⟨"B", false, false, 0, 10, none, 0⟩],
            turn_order := ["A", "B"], turn_index := 0, round := 1,
            status := "playing", game_active := true, winner := none,
            target_score := 100, starting_dice := 10,
            rules_variant := .Standard }
          "A" (fun _ => 1)) "A"
      = some ⟨"A", false, false, 7, 10, some ⟨0, 0, 0⟩, 0⟩) :=
  ⟨((claim_C10_empty_pool_roll
      { players := [⟨"A", false, false, 7, 0, none, 0⟩,
                    ⟨"B", false, false, 0, 10, none, 0⟩],
        turn_order := ["A", "B"], turn_index := 0, round := 1,
        status := "playing", game_active := true, winner := none,
        target_score := 100, starting_dice := 10,
        rules_variant := .PlayPalace }
      "A" (fun _ => 1) ⟨"A", false, false, 7, 0, none, 0⟩
      (by decide) rfl).2.2.1 rfl),
   ((claim_C10_empty_pool_roll
      { players := [⟨"A", false, false, 7, 0, none, 0⟩,
                    ⟨"B", false, false, 0, 10, none, 0⟩],
        turn_order := ["A", "B"], turn_index := 0, round := 1,
        status := "playing", game_active := true, winner := none,
        target_score := 100, starting_dice := 10,
        rules_variant := .Standard }
      "A" (fun _ => 1) ⟨"A", false, false, 7, 0, none, 0⟩
      (by decide) rfl).2.2.2 rfl)⟩

theorem bestScore_cons (target h : Nat) (p : TossUpPlayer) (ps : List TossUpPlayer) :
    bestScore target h (p :: ps)
      = bestScore target (if target ≤ p.score then max h p.score else h) ps := by
  unfold bestScore
  simp only [List.foldl_cons]

theorem bestScore_init_le (target : Nat) (h : Nat) (ps : List TossUpPlayer) :
    h ≤ bestScore target h ps := by
  induction ps generalizing h with
  | nil => simp [bestScore]
  | cons p rest ih =>
    rw [bestScore_cons]
    by_cases hc : target ≤ p.score
    · exact le_trans (le_max_left _ _) (by simpa [hc] using ih (max h p.score))
    · simpa [hc] using ih h

theorem score_le_bestScore (target h : Nat) (ps : List TossUpPlayer)
    (p : TossUpPlayer) (hp : p ∈ ps) (hq : target ≤ p.score) :
    p.score ≤ bestScore target h ps := by
  induction ps generalizing h with
  | nil => cases hp
  | cons q rest ih =>
    rw [bestScore_cons]
    rcases List.mem_cons.mp hp with h1 | h1
    · subst h1
      exact le_trans (le_max_right h p.score)
        (by simpa [hq] using bestScore_init_le target (max h p.score) rest)
    · exact ih _ h1

theorem bestScore_le (target h B : Nat) (ps : List TossUpPlayer) (h0 : h ≤ B)
    (hall : ∀ p ∈ ps, target ≤ p.score → p.score ≤ B) :
    bestScore target h ps ≤ B := by
  induction ps generalizing h with
  | nil => simpa [bestScore] using h0
  | cons q rest ih =>
    rw [bestScore_cons]
    by_cases hc : target ≤ q.score
    · simp only [hc, if_true]
      exact ih (max h q.score)
        (max_le h0 (hall q (List.mem_cons_self q rest) hc))
        (fun p hp hq => hall p (List.mem_cons_of_mem q hp) hq)
    · simp only [hc, if_false]
      exact ih h h0 (fun p hp hq => hall p (List.mem_cons_of_mem q hp) hq)

theorem bestScore_eq_init_or_mem (target h : Nat) (ps : List TossUpPlayer) :
    bestScore target h ps = h ∨
      ∃ p ∈ ps, target ≤ p.score ∧ bestScore target h ps = p.score := by
  induction ps generalizing h with
  | nil => exact Or.inl rfl
  | cons q rest ih =>
    rw [bestScore_cons]
    by_cases hc : target ≤ q.score
    · simp only [hc, if_true]
      rcases ih (max h q.score) with h1 | ⟨p, hp, hq, he⟩
      · rcases max_choice h q.score with hm | hm
        · exact Or.inl (by rw [h1, hm])
        · exact Or.inr ⟨q, List.mem_cons_self q rest, hc, by rw [h1, hm]⟩
      · exact Or.inr ⟨p, List.mem_cons_of_mem q hp, hq, he⟩
    · simp only [hc, if_false]
      rcases ih h with h1 | ⟨p, hp, hq, he⟩
      · exact Or.inl h1
      · exact Or.inr ⟨p, List.mem_cons_of_mem q hp, hq, he⟩

theorem foldlMax_init_le (m : Nat) (xs : List Nat) : m ≤ xs.foldl max m := by
  induction xs generalizing m with
  | nil => exact le_refl m
  | cons x rest ih =>
    exact le_trans (le_max_left m x) (by simpa using ih (max m x))

theorem mem_le_foldlMax (m x : Nat) (xs : List Nat) (hx : x ∈ xs) :
    x ≤ xs.foldl max m := by
  induction xs generalizing m with
  | nil => cases hx
  | cons y rest ih =>
    rcases List.mem_cons.mp hx with h1 | h1
    · subst h1
      exact le_trans (le_max_right m x) (by simpa using foldlMax_init_le (max m x) rest)
    · simpa using ih (max m y) h1

theorem foldlMax_eq_init_or_mem (m : Nat) (xs : List Nat) :
    xs.foldl max m = m ∨ xs.foldl max m ∈ xs := by
  induction xs generalizing m with
  | nil => exact Or.inl rfl
  | cons y rest ih =>
    simp only [List.foldl_cons]
    rcases ih (max m y) with h1 | h1
    · rcases max_choice m y with hm | hm
      · exact Or.inl (by rw [h1, hm])
      · exact Or.inr (by rw [h1, hm]; exact List.mem_cons_self y rest)
    · exact Or.inr (List.mem_cons_of_mem y h1)

/-- C4: a roll or bank request whose precondition is unmet is rejected with
the `InvalidActionError` class and returns the game state — ScoreLedger
totals included — unchanged; the preconditions fail exactly for: game not
playing, spectator, wrong player, and (for bank) zero turn points, so in
particular banking with zero turn points never mutates any score. -/
theorem claim_C4_rejected_actions (s : GameState) (name : String)
    (draws : Nat → Nat) (p : TossUpPlayer) (hp : getPlayer s name = some p) :
    (is_roll_enabled s p ≠ none →
      (execute_roll s name draws).1 = s ∧
      ∃ r, (execute_roll s name draws).2 = some (.InvalidActionError r)) ∧
    (is_bank_enabled s p ≠ none →
      (execute_bank s name).1 = s ∧
      ∃ r, (execute_bank s name).2 = some (.InvalidActionError r)) ∧
    (s.status ≠ "playing" ∨ p.is_spectator = true ∨ currentName s ≠ some p.name →
      is_roll_enabled s p ≠ none ∧ is_bank_enabled s p ≠ none) ∧
    (p.turn_points = 0 → is_bank_enabled s p ≠ none) := by
  refine ⟨?_, ?_, ?_, ?_⟩
  · intro h
    unfold execute_roll
    rw [hp]
    dsimp only
    cases hre : is_roll_enabled s p with
    | none => exact absurd hre h
    | some r => exact ⟨rfl, r, rfl⟩
  · intro h
    unfold execute_bank
    rw [hp]
    dsimp only
    cases hbe : is_bank_enabled s p with
    | none => exact absurd hbe h
    | some r => exact ⟨rfl, r, rfl⟩
  · intro h
    have hr : is_roll_enabled s p ≠ none := by
      unfold is_roll_enabled
      rcases h with h | h | h <;> split_ifs <;> simp_all
    have hb : is_bank_enabled s p ≠ none := by
      unfold is_bank_enabled
      rcases h with h | h | h <;> split_ifs <;> simp_all
    exact ⟨hr, hb⟩
  · intro h
    unfold is_bank_enabled
    split_ifs with h1 h2 h3 h4 <;> simp_all

/-- Witness for C4: in a concrete playing state it is player A's turn, so
player B's roll and B's zero-point bank are both rejected and leave the
state untouched. -/
theorem claim_C4_rejected_actions_witness :
    ((execute_roll
        { players := [⟨"A", false, false, 3, 2, none, 0⟩,
                      ⟨"B", false, false, 0, 10, none, 4⟩],
          turn_order := ["A", "B"], turn_index := 0, round := 1,
          status := "playing", game_active := true, winner := none,
          target_score := 100, starting_dice := 10,
          rules_variant := .Standard }
        "B" (fun _ => 1)).1 =
      { players := [⟨"A", false, false, 3, 2, none, 0⟩,
                    ⟨"B", false, false, 0, 10, none, 4⟩],
        turn_order := ["A", "B"], turn_index := 0, round := 1,
        status := "playing", game_active := true, winner := none,
        target_score := 100, starting_dice := 10,
        rules_variant := .Standard }) ∧
    ((execute_bank
        { players := [⟨"A", false, false, 3, 2, none, 0⟩,
                      ⟨"B", false, false, 0, 10, none, 4⟩],
          turn_order := ["A", "B"], turn_index := 0, round := 1,
          status := "playing", game_active := true, winner := none,
          target_score := 100, starting_dice := 10,
          rules_variant := .Standard }
        "B").1 =
      { players := [⟨"A", false, false, 3, 2, none, 0⟩,
                    ⟨"B", false, false, 0, 10, none, 4⟩],
        turn_order := ["A", "B"], turn_index := 0, round := 1,
        status := "playing", game_active := true, winner := none,
        target_score := 100, starting_dice := 10,
        rules_variant := .Standard }) :=
  ⟨((claim_C4_rejected_actions
      { players := [⟨"A", false, false, 3, 2, none, 0⟩,
                    ⟨"B", false, false, 0, 10, none, 4⟩],
        turn_order := ["A", "B"], turn_index := 0, round := 1,
        status := "playing", game_active := true, winner := none,
        target_score := 100, starting_dice := 10,
        rules_variant := .Standard }
      "B" (fun _ => 1) ⟨"B", false, false, 0, 10, none, 4⟩
      (by decide)).1 (by decide)).1,
   ((claim_C4_rejected_actions
      { players := [⟨"A", false, false, 3, 2, none, 0⟩,
                    ⟨"B", false, false, 0, 10, none, 4⟩],
        turn_order := ["A", "B"], turn_index := 0, round := 1,
        status := "playing", game_active := true, winner := none,
        target_score := 100, starting_dice := 10,
        rules_variant := .Standard }
      "B" (fun _ => 1) ⟨"B", false, false, 0, 10, none, 4⟩
      (by decide)).2.1 (by decide)).1⟩

/-- C6: the per-turn bot target is never stored below 0; when some opponent
(an active player other than the bot) has reached the target score, the
stored value is (highest such opponent score + 1) - own score (clamped at
0), where that `bestScore` really is the maximum opponent score among those
at or above the target; otherwise, when some opponent is within 20 points of
the target score, the stored value is the unreachable 999; otherwise it is
the base `randint(10, 25)` draw itself. -/
theorem claim_C6_bot_target (s : GameState) (name : String) (base : Nat)
    (hbase : 10 ≤ base ∧ base ≤ 25) :
    0 ≤ setup_bot_target s name base ∧
    ((∃ o ∈ (activePlayers s).filter (fun o => o.name ≠ name),
        s.target_score ≤ o.score) →
      setup_bot_target s name base =
          max 0 ((bestScore s.target_score 0
              ((activePlayers s).filter (fun o => o.name ≠ name)) : Int) + 1
            - ((getPlayer s name).map (fun p => (p.score : Int))).getD 0) ∧
        (∀ o ∈ (activePlayers s).filter (fun o => o.name ≠ name),
          s.target_score ≤ o.score →
            o.score ≤ bestScore s.target_score 0
              ((activePlayers s).filter (fun o => o.name ≠ name))) ∧
        (∃ o ∈ (activePlayers s).filter (fun o => o.name ≠ name),
          o.score = bestScore s.target_score 0
            ((activePlayers s).filter (fun o => o.name ≠ name)))) ∧
    ((∀ o ∈ (activePlayers s).filter (fun o => o.name ≠ name),
        o.score < s.target_score) →
      (∃ o ∈ (activePlayers s).filter (fun o => o.name ≠ name),
        (s.target_score : Int) - 20 ≤ (o.score : Int)) →
      setup_bot_target s name base = 999) ∧
    ((∀ o ∈ (activePlayers s).filter (fun o => o.name ≠ name),
        o.score < s.target_score) →
      20 < s.target_score →
      (∀ o ∈ (activePlayers s).filter (fun o => o.name ≠ name),
        (o.score : Int) < (s.target_score : Int) - 20) →
      setup_bot_target s name base = base) := by
  refine ⟨le_max_left 0 _, ?_, ?_, ?_⟩
  · rintro ⟨o0, ho0, hq0⟩
    have hhit : ((activePlayers s).filter (fun o => o.name ≠ name)).any
        (fun o => decide (s.target_score ≤ o.score)) = true := by
      rw [List.any_eq_true]
      exact ⟨o0, ho0, by simpa using hq0⟩
    refine ⟨?_, ?_, ?_⟩
    · unfold setup_bot_target
      simp only [hhit, if_true]
      rfl
    · intro o ho hq
      exact score_le_bestScore s.target_score 0 _ o ho hq
    · rcases bestScore_eq_init_or_mem s.target_score 0
        ((activePlayers s).filter (fun o => o.name ≠ name)) with h1 | ⟨p, hp, _, he⟩
      · refine ⟨o0, ho0, ?_⟩
        have h2 := score_le_bestScore s.target_score 0
          ((activePlayers s).filter (fun o => o.name ≠ name)) o0 ho0 hq0
        omega
      · exact ⟨p, hp, he.symm⟩
  · intro hnone ⟨o0, ho0, hq0⟩
    have hhit : ((activePlayers s).filter (fun o => o.name ≠ name)).any
        (fun o => decide (s.target_score ≤ o.score)) = false := by
      rw [List.any_eq_false]
      intro o ho
      simpa using Nat.not_le.mpr (hnone o ho)
    have hopp : (s.target_score : Int) - 20 ≤
        ((((activePlayers s).filter (fun o => o.name ≠ name)).foldl
          (fun m o => max m o.score) 0 : Nat) : Int) := by
      have h1 : o0.score ≤
          ((activePlayers s).filter (fun o => o.name ≠ name)).foldl
            (fun m o => max m o.score) 0 := by
        rw [show (((activePlayers s).filter (fun o => o.name ≠ name)).foldl
            (fun m o => max m o.score) 0)
          = ((((activePlayers s).filter (fun o => o.name ≠ name)).map
              (fun o => o.score)).foldl max 0) from (List.foldl_map _ _ _ _).symm]
        exact mem_le_foldlMax 0 o0.score _ (List.mem_map_of_mem _ ho0)
      calc (s.target_score : Int) - 20 ≤ (o0.score : Int) := hq0
        _ ≤ _ := by exact_mod_cast h1
    unfold setup_bot_target
    simp only [hhit, Bool.false_eq_true, if_false, hopp, if_pos hopp]
    simp
  · intro hnone h20 hfar
    have hhit : ((activePlayers s).filter (fun o => o.name ≠ name)).any
        (fun o => decide (s.target_score ≤ o.score)) = false := by
      rw [List.any_eq_false]
      intro o ho
      simpa using Nat.not_le.mpr (hnone o ho)
    have hopp : ¬ ((s.target_score : Int) - 20 ≤
        ((((activePlayers s).filter (fun o => o.name ≠ name)).foldl
          (fun m o => max m o.score) 0 : Nat) : Int)) := by
      rw [not_le]
      rw [show (((activePlayers s).filter (fun o => o.name ≠ name)).foldl
          (fun m o => max m o.score) 0)
        = ((((activePlayers s).filter (fun o => o.name ≠ name)).map
            (fun o => o.score)).foldl max 0) from (List.foldl_map _ _ _ _).symm]
      rcases foldlMax_eq_init_or_mem 0
        (((activePlayers s).filter (fun o => o.name ≠ name)).map
          (fun o => o.score)) with h1 | h1
      · rw [h1]
        omega
      · rcases List.mem_map.mp h1 with ⟨o, ho, he⟩
        rw [← he]
        exact hfar o ho
    unfold setup_bot_target
    simp only [hhit, Bool.false_eq_true, if_false, if_neg hopp]
    omega

/-- Witness for C6: a concrete state where the single opponent B sits at 97
of 100 (within 20 of the target but below it): the bot stores the
unreachable target 999 whatever the base draw. -/
theorem claim_C6_bot_target_witness :
    setup_bot_target
      { players := [⟨"A", true, false, 0, 10, none, 12⟩,
                    ⟨"B", false, false, 0, 10, none, 97⟩],
        turn_order := ["A", "B"], turn_index := 0, round := 1,
        status := "playing", game_active := true, winner := none,
        target_score := 100, starting_dice := 10,
        rules_variant := .Standard }
      "A" 17 = 999 :=
  (claim_C6_bot_target
    { players := [⟨"A", true, false, 0, 10, none, 12⟩,
                  ⟨"B", false, false, 0, 10, none, 97⟩],
      turn_order := ["A", "B"], turn_index := 0, round := 1,
      status := "playing", game_active := true, winner := none,
      target_score := 100, starting_dice := 10,
      rules_variant := .Standard }
    "A" 17 (by decide)).2.2.1 (by decide)
    ⟨⟨"B", false, false, 0, 10, none, 97⟩, by decide, by decide⟩

/-- C7: the bot decision under the stored target (falling back to the
constant 15 when none is stored): bank when own score plus turn points
reaches the target score; else roll when turn points are 0; else roll while
turn points are below the target; else bank exactly when the uniform
`random.random()` draw falls below the dice-keyed chance — 0.55 at 1 die,
0.30 at 2, 0.10 at 3, 0.02 at 4 or more — and roll otherwise. -/
theorem claim_C7_bot_decision (s : GameState) (player : TossUpPlayer)
    (t : Option Int) (p : ℚ) :
    (s.target_score ≤ player.score + player.turn_points →
      bot_think s player t p = "bank") ∧
    (player.score + player.turn_points < s.target_score →
      player.turn_points = 0 → bot_think s player t p = "roll") ∧
    (player.score + player.turn_points < s.target_score →
      player.turn_points ≠ 0 → (player.turn_points : Int) < t.getD 15 →
      bot_think s player t p = "roll") ∧
    (player.score + player.turn_points < s.target_score →
      player.turn_points ≠ 0 → t.getD 15 ≤ (player.turn_points : Int) →
      (player.dice_count = 1 →
        (bot_think s player t p = "bank" ↔ p < 55 / 100) ∧
        (bot_think s player t p = "roll" ↔ ¬ p < 55 / 100)) ∧
      (player.dice_count = 2 →
        (bot_think s player t p = "bank" ↔ p < 30 / 100) ∧
        (bot_think s player t p = "roll" ↔ ¬ p < 30 / 100)) ∧
      (player.dice_count = 3 →
        (bot_think s player t p = "bank" ↔ p < 10 / 100) ∧
        (bot_think s player t p = "roll" ↔ ¬ p < 10 / 100)) ∧
      (4 ≤ player.dice_count →
        (bot_think s player t p = "bank" ↔ p < 2 / 100) ∧
        (bot_think s player t p = "roll" ↔ ¬ p < 2 / 100))) := by
  refine ⟨?_, ?_, ?_, ?_⟩
  · intro h
    unfold bot_think
    rw [if_pos h]
  · intro h h0
    unfold bot_think
    rw [if_neg (Nat.not_le.mpr h), if_pos h0]
  · intro h h0 hlt
    unfold bot_think
    rw [if_neg (Nat.not_le.mpr h), if_neg h0, if_neg (not_le.mpr hlt)]
  · intro h h0 hge
    refine ⟨?_, ?_, ?_, ?_⟩ <;> intro hdc <;>
      unfold bot_think <;>
      rw [if_neg (Nat.not_le.mpr h), if_neg h0, if_pos hge]
    · rw [hdc]
      by_cases hp : p < 55 / 100 <;> simp [hp]
    · rw [hdc]
      by_cases hp : p < 30 / 100 <;> simp [hp]
    · rw [hdc]
      by_cases hp : p < 10 / 100 <;> simp [hp]
    · have h1 : player.dice_count ≠ 1 := by omega
      have h2 : player.dice_count ≠ 2 := by omega
      have h3 : player.dice_count ≠ 3 := by omega
      by_cases hp : p < 2 / 100 <;> simp [h1, h2, h3, hp]

theorem quarter_lt_pendingChance : (1 / 4 : ℚ) < 30 / 100 := by norm_num

/-- Witness for C7: below the winning score with 20 turn points against a
stored target of 18 and 2 dice left, a draw of 1/4 (below the 30% chance)
banks. -/
theorem claim_C7_bot_decision_witness :
    bot_think
      { players := [⟨"A", true, false, 20, 2, none, 10⟩,
                    ⟨"B", false, false, 0, 10, none, 0⟩],
        turn_order := ["A", "B"], turn_index := 0, round := 1,
        status := "playing", game_active := true, winner := none,
        target_score := 100, starting_dice := 10,
        rules_variant := .Standard }
      ⟨"A", true, false, 20, 2, none, 10⟩ (some 18) (1 / 4) = "bank" :=
  (((claim_C7_bot_decision
      { players := [⟨"A", true, false, 20, 2, none, 10⟩,
                    ⟨"B", false, false, 0, 10, none, 0⟩],
        turn_order := ["A", "B"], turn_index := 0, round := 1,
        status := "playing", game_active := true, winner := none,
        target_score := 100, starting_dice := 10,
        rules_variant := .Standard }
      ⟨"A", true, false, 20, 2, none, 10⟩ (some 18) (1 / 4)).2.2.2
    (by decide) (by decide) (by decide)).2.1 rfl).1.mpr quarter_lt_pendingChance

theorem decodeRoll_encodeRoll (r : Option Roll) :
    decodeRoll (encodeRoll r) = some r := by
  cases r with
  | none => rfl
  | some x => cases x; rfl

theorem decodePlayer_encodePlayer (p : TossUpPlayer) :
    decodePlayer (encodePlayer p) = some p := by
  cases p with
  | mk name is_bot is_spectator turn_points dice_count last_roll score =>
    cases last_roll with
    | none => rfl
    | some x => cases x; rfl

theorem decodePlayers_map (ps : List TossUpPlayer) :
    decodePlayers (ps.map encodePlayer) = some ps := by
  induction ps with
  | nil => rfl
  | cons p rest ih =>
    simp only [List.map_cons, decodePlayers, decodePlayer_encodePlayer p, ih]

theorem decodeNames_map (ns : List String) :
    decodeNames (ns.map JValue.jstr) = some ns := by
  induction ns with
  | nil => rfl
  | cons n rest ih =>
      simp only [List.map_cons, decodeNames, ih]
      rfl

theorem decodeWinner_encodeWinner (w : Option String) :
    decodeWinner (encodeWinner w) = some w := by
  cases w <;> rfl

theorem decodeVariant_encodeVariant (v : Variant) :
    decodeVariant (encodeVariant v) = some v := by
  cases v <;> rfl

theorem decode_encode (s : GameState) : decode (encode s) = some s := by
  cases s with
  | mk players order ti rd st ga w ts sd v =>
    unfold encode decode
    dsimp only
    rw [decodePlayers_map, decodeNames_map, decodeWinner_encodeWinner,
      decodeVariant_encodeVariant]

/-- C9: decoding an encoded snapshot reconstructs every game state exactly —
in particular every reachable one, mid-turn `turn_points`, populated
`last_roll` and tie-break spectator marks included; the bot's per-turn
target is excluded from the snapshot (`encode` never reads the target
store), and on a tick after a reload — the target store empty, the current
player a bot with no stored target — the target is recomputed by
`_setup_bot_target`. -/
theorem claim_C9_snapshot_roundtrip (s : GameState) (name : String)
    (p : TossUpPlayer) (base : Nat) (hga : s.game_active = true)
    (hcur : currentName s = some name) (hp : getPlayer s name = some p)
    (hbot : p.is_bot = true) :
    decode (encode s) = some s ∧
    lookupTarget (on_tick_targets s [] base) name
      = some (setup_bot_target s name base) := by
  refine ⟨decode_encode s, ?_⟩
  unfold on_tick_targets
  rw [hga, hcur]
  dsimp only
  rw [hp]
  dsimp only
  simp [hbot, lookupTarget]

/-- Witness for C9: a concrete mid-turn state (round 6, player A mid-roll
with 18 turn points and a recorded last roll, player B a tie-break
spectator) decodes back from its snapshot exactly, and the current bot A's
target is recomputed on the first tick after reload. -/
theorem claim_C9_snapshot_roundtrip_witness :
    (decode (encode
        { players := [⟨"A", true, false, 18, 4, some ⟨3, 2, 1⟩, 78⟩,
                      ⟨"B", false, true, 0, 12, none, 62⟩],
          turn_order := ["A"], turn_index := 0, round := 6,
          status := "playing", game_active := true, winner := none,
          target_score := 150, starting_dice := 12,
          rules_variant := .PlayPalace })
      = some
        { players := [⟨"A", true, false, 18, 4, some ⟨3, 2, 1⟩, 78⟩,
                      ⟨"B", false, true, 0, 12, none, 62⟩],
          turn_order := ["A"], turn_index := 0, round := 6,
          status := "playing", game_active := true, winner := none,
          target_score := 150, starting_dice := 12,
          rules_variant := .PlayPalace }) ∧
    lookupTarget
        (on_tick_targets
          { players := [⟨"A", true, false, 18, 4, some ⟨3, 2, 1⟩, 78⟩,
                        ⟨"B", false, true, 0, 12, none, 62⟩],
            turn_order := ["A"], turn_index := 0, round := 6,
            status := "playing", game_active := true, winner := none,
            target_score := 150, starting_dice := 12,
            rules_variant := .PlayPalace }
          [] 14) "A"
      = some (setup_bot_target
          { players := [⟨"A", true, false, 18, 4, some ⟨3, 2, 1⟩, 78⟩,
                        ⟨"B", false, true, 0, 12, none, 62⟩],
            turn_order := ["A"], turn_index := 0, round := 6,
            status := "playing", game_active := true, winner := none,
            target_score := 150, starting_dice := 12,
            rules_variant := .PlayPalace }
          "A" 14) :=
  claim_C9_snapshot_roundtrip
    { players := [⟨"A", true, false, 18, 4, some ⟨3, 2, 1⟩, 78⟩,
                  ⟨"B", false, true, 0, 12, none, 62⟩],
      turn_order := ["A"], turn_index := 0, round := 6,
      status := "playing", game_active := true, winner := none,
      target_score := 150, starting_dice := 12,
      rules_variant := .PlayPalace }
    "A" ⟨"A", true, false, 18, 4, some ⟨3, 2, 1⟩, 78⟩ 14
    rfl rfl (by decide) rfl

theorem foldl_winStep_spec (target : Nat) (ps : List TossUpPlayer) :
    ∀ (ws : List TossUpPlayer) (h : Nat),
      ps.foldl (winStep target) (ws, h) =
        ((if h < bestScore target h ps then [] else ws)
            ++ ps.filter (fun p => decide (target ≤ p.score)
                && decide (p.score = bestScore target h ps)),
          bestScore target h ps) := by
  induction ps with
  | nil =>
    intro ws h
    simp [bestScore]
  | cons p rest ih =>
    intro ws h
    rw [List.foldl_cons]
    by_cases hq : target ≤ p.score
    · by_cases hlt : h < p.score
      · have hw : winStep target (ws, h) p = ([p], p.score) := by
          unfold winStep
          rw [if_pos hq, if_pos hlt]
        have hB : bestScore target h (p :: rest) = bestScore target p.score rest := by
          rw [bestScore_cons, if_pos hq, max_eq_right (le_of_lt hlt)]
        have hBge : p.score ≤ bestScore target p.score rest :=
          bestScore_init_le target p.score rest
        rw [hw, ih [p] p.score, hB, if_pos (lt_of_lt_of_le hlt hBge)]
        by_cases hPB : p.score = bestScore target p.score rest
        · rw [if_neg (by omega)]
          have hpred : (decide (target ≤ p.score)
              && decide (p.score = bestScore target p.score rest)) = true := by
            rw [decide_eq_true hq, decide_eq_true hPB]
            rfl
          rw [List.filter_cons, if_pos hpred]
          simp
        · rw [if_pos (by omega)]
          have hpred : (decide (target ≤ p.score)
              && decide (p.score = bestScore target p.score rest)) = false := by
            rw [decide_eq_false hPB]
            simp
          rw [List.filter_cons, hpred]
          simp
      · have hstep : max h p.score = h := max_eq_left (Nat.le_of_not_lt hlt)
        have hB : bestScore target h (p :: rest) = bestScore target h rest := by
          rw [bestScore_cons, if_pos hq, hstep]
        have hBge : h ≤ bestScore target h rest := bestScore_init_le target h rest
        by_cases heq : p.score = h
        · have hw : winStep target (ws, h) p = (ws ++ [p], h) := by
            unfold winStep
            rw [if_pos hq, if_neg hlt, if_pos heq]
          rw [hw, ih (ws ++ [p]) h, hB]
          by_cases hlt2 : h < bestScore target h rest
          · rw [if_pos hlt2, if_pos hlt2]
            have hpred : (decide (target ≤ p.score)
                && decide (p.score = bestScore target h rest)) = false := by
              rw [decide_eq_false (show ¬ p.score = bestScore target h rest by omega)]
              simp
            rw [List.filter_cons, hpred]
            simp
          · rw [if_neg hlt2, if_neg hlt2]
            have hpred : (decide (target ≤ p.score)
                && decide (p.score = bestScore target h rest)) = true := by
              rw [decide_eq_true hq,
                decide_eq_true (show p.score = bestScore target h rest by omega)]
              rfl
            rw [List.filter_cons, if_pos hpred]
            simp
        · have hw : winStep target (ws, h) p = (ws, h) := by
            unfold winStep
            rw [if_pos hq, if_neg hlt, if_neg heq]
          rw [hw, ih ws h, hB]
          have hpB : ¬ (p.score = bestScore target h rest) := by
            have h1 : p.score ≤ h := Nat.le_of_not_lt hlt
            omega
          have hpred : (decide (target ≤ p.score)
              && decide (p.score = bestScore target h rest)) = false := by
            rw [decide_eq_false hpB]
            simp
          rw [List.filter_cons, hpred]
          simp
    · have hw : winStep target (ws, h) p = (ws, h) := by
        unfold winStep
        rw [if_neg hq]
      have hB : bestScore target h (p :: rest) = bestScore target h rest := by
        rw [bestScore_cons, if_neg hq]
      rw [hw, ih ws h, hB]
      simp [List.filter_cons, hq]

theorem computeWinners_eq (target : Nat) (ps : List TossUpPlayer) :
    computeWinners target ps
      = (ps.filter (fun p => decide (target ≤ p.score)
            && decide (p.score = bestScore target 0 ps)),
         bestScore target 0 ps) := by
  unfold computeWinners
  rw [foldl_winStep_spec]
  by_cases h0 : 0 < bestScore target 0 ps <;> simp [h0]

theorem start_turn_round (s : GameState) : (start_turn s).round = s.round := by
  unfold start_turn
  cases currentName s <;> rfl

theorem start_turn_status (s : GameState) : (start_turn s).status = s.status := by
  unfold start_turn
  cases currentName s <;> rfl

theorem start_turn_turn_order (s : GameState) :
    (start_turn s).turn_order = s.turn_order := by
  unfold start_turn
  cases currentName s <;> rfl

theorem start_round_round (s : GameState) : (start_round s).round = s.round + 1 := by
  unfold start_round
  rw [start_turn_round]
  rfl

theorem start_round_status (s : GameState) : (start_round s).status = s.status := by
  unfold start_round
  rw [start_turn_status]
  rfl

theorem start_round_turn_order (s : GameState) :
    (start_round s).turn_order = (activePlayers s).map (fun p => p.name) := by
  unfold start_round
  rw [start_turn_turn_order]
  rfl

theorem activePlayers_mark (s : GameState) (names : List String) :
    activePlayers { s with players := s.players.map (fun p =>
        if !p.is_spectator && !(names.contains p.name)
        then { p with is_spectator := true } else p) }
      = (activePlayers s).filter (fun p => names.contains p.name) := by
  unfold activePlayers
  dsimp only
  rw [List.filter_map]
  have hfun : ((fun p : TossUpPlayer => !p.is_spectator) ∘ (fun p =>
      if !p.is_spectator && !(names.contains p.name)
      then { p with is_spectator := true } else p))
      = (fun p => !p.is_spectator && names.contains p.name) := by
    funext p
    by_cases h1 : p.is_spectator <;> by_cases h2 : p.name ∈ names <;>
      simp [Function.comp, h1, h2, List.elem_eq_mem]
  rw [hfun, List.filter_filter]
  have hcomm : (s.players.filter (fun a =>
        names.contains a.name && !a.is_spectator))
      = s.players.filter (fun p => !p.is_spectator && names.contains p.name) :=
    List.filter_congr (fun a _ => by rw [Bool.and_comm])
  rw [hcomm]
  have hid : ∀ p ∈ s.players.filter (fun p =>
      !p.is_spectator && names.contains p.name),
      (fun p => if !p.is_spectator && !(names.contains p.name)
        then { p with is_spectator := true } else p) p = id p := by
    intro p hp
    have h2 := (List.mem_filter.mp hp).2
    have hm : p.name ∈ names := by
      have hc := (Bool.and_eq_true _ _).mp h2
      simpa [List.elem_eq_mem] using hc.2
    simp [List.elem_eq_mem, hm]
  rw [List.map_congr_left hid, List.map_id]

theorem filter_names_of_nodup (A : List TossUpPlayer)
    (pred : TossUpPlayer → Bool)
    (hnd : (A.map (fun p => p.name)).Nodup) :
    A.filter (fun p =>
        ((A.filter pred).map (fun w => w.name)).contains p.name)
      = A.filter pred := by
  apply List.filter_congr
  intro p hp
  have hinj := List.inj_on_of_nodup_map hnd
  cases hpred : pred p with
  | true =>
      have hmem : p.name ∈ (A.filter pred).map (fun w => w.name) :=
        List.mem_map_of_mem _ (List.mem_filter.mpr ⟨hp, hpred⟩)
      simp [List.elem_eq_mem, hmem]
  | false =>
      have hmem : p.name ∉ (A.filter pred).map (fun w => w.name) := by
        intro hc
        rcases List.mem_map.mp hc with ⟨q, hq, he⟩
        have hqA := (List.mem_filter.mp hq).1
        have : q = p := hinj hqA hp he
        rw [this] at hq
        rw [(List.mem_filter.mp hq).2] at hpred
        cases hpred
      simp [List.elem_eq_mem, hmem]

/-- C5: at round end, over the currently-active players, collect the
qualifiers (ScoreLedger total at or above the target score) that achieve the
maximum such total: no qualifier starts a fresh round; exactly one finishes
the game with that player — a maximum qualifier — as winner; several tied
qualifiers mark every active non-tied player a spectator and start a new
round whose recomputed turn order holds exactly the tied players. -/
theorem claim_C5_round_end (s : GameState)
    (hnd : (s.players.map (fun p => p.name)).Nodup) :
    ((activePlayers s).filter (fun p => decide (s.target_score ≤ p.score)) = [] →
      on_round_end s = start_round s ∧
      (on_round_end s).round = s.round + 1 ∧
      (on_round_end s).status = s.status) ∧
    (∀ w, (activePlayers s).filter (fun p => decide (s.target_score ≤ p.score)
        && decide (p.score = bestScore s.target_score 0 (activePlayers s))) = [w] →
      on_round_end s = finishGame s (some w.name) ∧
      (on_round_end s).status = "finished" ∧
      (on_round_end s).game_active = false ∧
      (on_round_end s).winner = some w.name ∧
      s.target_score ≤ w.score ∧
      (∀ q ∈ activePlayers s, s.target_score ≤ q.score → q.score ≤ w.score)) ∧
    (2 ≤ ((activePlayers s).filter (fun p => decide (s.target_score ≤ p.score)
        && decide (p.score = bestScore s.target_score 0 (activePlayers s)))).length →
      on_round_end s = start_round { s with players := s.players.map (fun p =>
          if !p.is_spectator && !(((((activePlayers s).filter
                (fun p => decide (s.target_score ≤ p.score)
                  && decide (p.score = bestScore s.target_score 0
                      (activePlayers s)))).map (fun w => w.name)).contains p.name))
          then { p with is_spectator := true } else p) } ∧
      activePlayers { s with players := s.players.map (fun p =>
          if !p.is_spectator && !(((((activePlayers s).filter
                (fun p => decide (s.target_score ≤ p.score)
                  && decide (p.score = bestScore s.target_score 0
                      (activePlayers s)))).map (fun w => w.name)).contains p.name))
          then { p with is_spectator := true } else p) }
        = (activePlayers s).filter (fun p => decide (s.target_score ≤ p.score)
            && decide (p.score = bestScore s.target_score 0 (activePlayers s))) ∧
      (on_round_end s).turn_order
        = ((activePlayers s).filter (fun p => decide (s.target_score ≤ p.score)
            && decide (p.score = bestScore s.target_score 0
                (activePlayers s)))).map (fun p => p.name) ∧
      (on_round_end s).round = s.round + 1) := by
  have hcw := computeWinners_eq s.target_score (activePlayers s)
  have hndA : ((activePlayers s).map (fun p => p.name)).Nodup :=
    List.Nodup.sublist
      (List.Sublist.map (fun p => p.name) (List.filter_sublist s.players)) hnd
  refine ⟨?_, ?_, ?_⟩
  · intro hqual
    have htied : (activePlayers s).filter (fun p =>
        decide (s.target_score ≤ p.score) && decide (p.score
          = bestScore s.target_score 0 (activePlayers s))) = [] := by
      rw [List.filter_eq_nil_iff] at hqual ⊢
      intro a ha
      have h1 := hqual a ha
      simp only [decide_eq_true_eq] at h1
      simp only [Bool.and_eq_true, decide_eq_true_eq, not_and]
      intro hge
      exact absurd hge h1
    have h1 : on_round_end s = start_round s := by
      unfold on_round_end
      rw [hcw]
      dsimp only
      rw [htied]
    exact ⟨h1, by rw [h1, start_round_round], by rw [h1, start_round_status]⟩
  · intro w htied
    have h1 : on_round_end s = finishGame s (some w.name) := by
      unfold on_round_end
      rw [hcw]
      dsimp only
      rw [htied]
    have hwmem : w ∈ (activePlayers s).filter (fun p =>
        decide (s.target_score ≤ p.score) && decide (p.score
          = bestScore s.target_score 0 (activePlayers s))) := by
      rw [htied]
      exact List.mem_cons_self w []
    have hw2 := List.mem_filter.mp hwmem
    have hw3 := (Bool.and_eq_true _ _).mp hw2.2
    have hq : s.target_score ≤ w.score := by simpa using hw3.1
    have hBw : w.score = bestScore s.target_score 0 (activePlayers s) := by
      simpa using hw3.2
    refine ⟨h1, by rw [h1]; rfl, by rw [h1]; rfl, by rw [h1]; rfl, hq, ?_⟩
    intro q hqa hqs
    rw [hBw]
    exact score_le_bestScore _ _ _ q hqa hqs
  · intro hlen
    rcases htd : (activePlayers s).filter (fun p =>
        decide (s.target_score ≤ p.score) && decide (p.score
          = bestScore s.target_score 0 (activePlayers s))) with _ | ⟨a, tl⟩
    · rw [htd] at hlen
      simp at hlen
    rcases htl : tl with _ | ⟨b, t⟩
    · rw [htl] at htd
      rw [htd] at hlen
      simp at hlen
    rw [htl] at htd
    have h1 : on_round_end s = start_round { s with players := s.players.map (fun p =>
        if !p.is_spectator && !(((((activePlayers s).filter
              (fun p => decide (s.target_score ≤ p.score)
                && decide (p.score = bestScore s.target_score 0
                    (activePlayers s)))).map (fun w => w.name)).contains p.name))
        then { p with is_spectator := true } else p) } := by
      unfold on_round_end
      rw [hcw]
      dsimp only
      rw [htd]
    have h2 : activePlayers { s with players := s.players.map (fun p =>
        if !p.is_spectator && !(((((activePlayers s).filter
              (fun p => decide (s.target_score ≤ p.score)
                && decide (p.score = bestScore s.target_score 0
                    (activePlayers s)))).map (fun w => w.name)).contains p.name))
        then { p with is_spectator := true } else p) }
        = (activePlayers s).filter (fun p => decide (s.target_score ≤ p.score)
            && decide (p.score = bestScore s.target_score 0 (activePlayers s))) := by
      rw [activePlayers_mark s]
      exact filter_names_of_nodup (activePlayers s) _ hndA
    refine ⟨h1, h2, ?_, by rw [h1, start_round_round]⟩
    rw [h1, start_round_turn_order]
    have h3 : activePlayers { s with round := s.round } = activePlayers s := rfl
    rw [show (activePlayers { s with players := s.players.map (fun p =>
        if !p.is_spectator && !(((((activePlayers s).filter
              (fun p => decide (s.target_score ≤ p.score)
                && decide (p.score = bestScore s.target_score 0
                    (activePlayers s)))).map (fun w => w.name)).contains p.name))
        then { p with is_spectator := true } else p) }) = (activePlayers s).filter
          (fun p => decide (s.target_score ≤ p.score)
            && decide (p.score = bestScore s.target_score 0 (activePlayers s)))
      from h2]

/-- Witness for C5: a concrete three-player round end with A and B tied at
the target score 30 and C at 10: the new round's turn order is exactly
["A", "B"], the round counter advances, and C is marked spectator. -/
theorem claim_C5_round_end_witness :
    (on_round_end
        { players := [⟨"A", false, false, 0, 10, none, 30⟩,
                      ⟨"B", false, false, 0, 10, none, 30⟩,
                      ⟨"C", false, false, 0, 10, none, 10⟩],
          turn_order := ["A", "B", "C"], turn_index := 2, round := 1,
          status := "playing", game_active := true, winner := none,
          target_score := 30, starting_dice := 10,
          rules_variant := .Standard }).turn_order = ["A", "B"] ∧
    (on_round_end
        { players := [⟨"A", false, false, 0, 10, none, 30⟩,
                      ⟨"B", false, false, 0, 10, none, 30⟩,
                      ⟨"C", false, false, 0, 10, none, 10⟩],
          turn_order := ["A", "B", "C"], turn_index := 2, round := 1,
          status := "playing", game_active := true, winner := none,
          target_score := 30, starting_dice := 10,
          rules_variant := .Standard }).round = 2 ∧
    (getPlayer
        (on_round_end
          { players := [⟨"A", false, false, 0, 10, none, 30⟩,
                        ⟨"B", false, false, 0, 10, none, 30⟩,
                        ⟨"C", false, false, 0, 10, none, 10⟩],
            turn_order := ["A", "B", "C"], turn_index := 2, round := 1,
            status := "playing", game_active := true, winner := none,
            target_score := 30, starting_dice := 10,
            rules_variant := .Standard }) "C").map (fun p => p.is_spectator)
      = some true := by
  have h := (claim_C5_round_end
    { players := [⟨"A", false, false, 0, 10, none, 30⟩,
                  ⟨"B", false, false, 0, 10, none, 30⟩,
                  ⟨"C", false, false, 0, 10, none, 10⟩],
      turn_order := ["A", "B", "C"], turn_index := 2, round := 1,
      status := "playing", game_active := true, winner := none,
      target_score := 30, starting_dice := 10,
      rules_variant := .Standard }
    (by decide)).2.2 (by decide)
  refine ⟨?_, h.2.2.2, ?_⟩
  · rw [h.2.2.1]
    rfl
  · rw [h.1]
    rfl

theorem mem_updatePlayer (s : GameState) (n : String)
    (f : TossUpPlayer → TossUpPlayer) (q : TossUpPlayer)
    (hq : q ∈ (updatePlayer s n f).players) :
    ∃ p ∈ s.players, q = if p.name = n then f p else p := by
  unfold updatePlayer at hq
  rcases List.mem_map.mp hq with ⟨p, hp, he⟩
  exact ⟨p, hp, he.symm⟩

theorem map_name_updatePlayer (s : GameState) (n : String)
    {f : TossUpPlayer → TossUpPlayer} (hf : ∀ q, (f q).name = q.name) :
    (updatePlayer s n f).players.map (fun p => p.name)
      = s.players.map (fun p => p.name) := by
  unfold updatePlayer
  dsimp only
  rw [List.map_map]
  apply List.map_congr_left
  intro p _
  by_cases h : p.name = n <;> simp [h, hf]

theorem map_name_start_turn (s : GameState) :
    (start_turn s).players.map (fun p => p.name)
      = s.players.map (fun p => p.name) := by
  unfold start_turn
  cases currentName s with
  | none => rfl
  | some n => exact map_name_updatePlayer s n (fun q => rfl)

theorem map_name_start_round (s : GameState) :
    (start_round s).players.map (fun p => p.name)
      = s.players.map (fun p => p.name) := by
  unfold start_round
  rw [map_name_start_turn]
  rfl

theorem map_name_mark (s : GameState) (names : List String) :
    ({ s with players := s.players.map (fun p =>
        if !p.is_spectator && !(names.contains p.name)
        then { p with is_spectator := true } else p) } : GameState).players.map
          (fun p => p.name)
      = s.players.map (fun p => p.name) := by
  dsimp only
  rw [List.map_map]
  apply List.map_congr_left
  intro p _
  show (if !p.is_spectator && !(names.contains p.name)
      then { p with is_spectator := true } else p).name = p.name
  split <;> rfl

theorem map_name_on_round_end (s : GameState) :
    (on_round_end s).players.map (fun p => p.name)
      = s.players.map (fun p => p.name) := by
  unfold on_round_end
  dsimp only
  rcases (computeWinners s.target_score (activePlayers s)).1 with _ | ⟨a, _ | ⟨b, t⟩⟩
  · exact map_name_start_round s
  · rfl
  · rw [map_name_start_round]
    exact map_name_mark s _

theorem map_name_end_turn (s : GameState) :
    (end_turn s).players.map (fun p => p.name)
      = s.players.map (fun p => p.name) := by
  unfold end_turn on_turn_end
  by_cases h : s.turn_order.length - 1 ≤ s.turn_index
  · rw [if_pos h]
    exact map_name_on_round_end s
  · rw [if_neg h, map_name_start_turn]
    rfl

theorem map_name_on_start (s : GameState) :
    (on_start s).players.map (fun p => p.name)
      = s.players.map (fun p => p.name) := by
  unfold on_start
  dsimp only
  rw [map_name_start_round]
  dsimp only
  rw [List.map_map]
  apply List.map_congr_left
  intro p _
  show (if !p.is_spectator
      then { p with turn_points := 0, dice_count := s.starting_dice,
                    last_roll := none, score := 0 } else p).name = p.name
  split <;> rfl

theorem allZero_start_turn (s : GameState) (h : AllZero s) :
    AllZero (start_turn s) := by
  unfold start_turn
  cases currentName s with
  | none => exact h
  | some n =>
      intro q hq
      rcases mem_updatePlayer s n _ q hq with ⟨p, hp, he⟩
      by_cases hc : p.name = n
      · rw [he, if_pos hc]
      · rw [he, if_neg hc]
        exact h p hp

theorem allZero_start_round (s : GameState) (h : AllZero s) :
    AllZero (start_round s) := by
  unfold start_round
  apply allZero_start_turn
  intro q hq
  exact h q hq

theorem allZero_on_round_end (s : GameState) (h : AllZero s) :
    AllZero (on_round_end s) := by
  unfold on_round_end
  dsimp only
  rcases (computeWinners s.target_score (activePlayers s)).1 with _ | ⟨a, _ | ⟨b, t⟩⟩
  · exact allZero_start_round s h
  · exact h
  · apply allZero_start_round
    intro q hq
    dsimp only at hq
    rcases List.mem_map.mp hq with ⟨p, hp, he⟩
    rw [← he]
    by_cases hc : (!p.is_spectator
        && !((((a :: b :: t).map (fun w => w.name)).contains p.name))) = true <;>
      simp only [hc, if_pos, if_neg, if_true, if_false] <;> exact h p hp

theorem allZero_end_turn (s : GameState) (h : AllZero s) :
    AllZero (end_turn s) := by
  unfold end_turn on_turn_end
  by_cases hc : s.turn_order.length - 1 ≤ s.turn_index
  · rw [if_pos hc]
    exact allZero_on_round_end s h
  · rw [if_neg hc]
    apply allZero_start_turn
    intro q hq
    exact h q hq

theorem roll_enabled_current (s : GameState) (p : TossUpPlayer)
    (h : is_roll_enabled s p = none) : currentName s = some p.name := by
  unfold is_roll_enabled at h
  split_ifs at h with h1 h2 h3
  · exact not_not.mp h3

theorem bank_enabled_current (s : GameState) (p : TossUpPlayer)
    (h : is_bank_enabled s p = none) : currentName s = some p.name := by
  unfold is_bank_enabled at h
  split_ifs at h with h1 h2 h3 h4
  · exact not_not.mp h3

theorem pointsInv_reachable (s : GameState) (h : Reachable s) : PointsInv s := by
  induction h with
  | start s0 hnd hz =>
      have hz3 : AllZero (on_start s0) := by
        unfold on_start
        dsimp only
        apply allZero_start_round
        intro q hq
        dsimp only at hq
        rcases List.mem_map.mp hq with ⟨p, hp, he⟩
        rw [← he]
        by_cases hc : (!p.is_spectator) = true
        · rw [if_pos hc]
        · rw [if_neg hc]
          exact hz p hp
      constructor
      · rw [map_name_on_start]
        exact hnd
      · intro p hp hne
        exact absurd (hz3 p hp) hne
  | roll s name draws hr ih =>
      unfold execute_roll
      cases hp : getPlayer s name with
      | none => exact ih
      | some p =>
          dsimp only
          cases hen : is_roll_enabled s p with
          | some r => exact ih
          | none =>
              dsimp only
              have hcur : currentName s = some name := by
                rw [← getPlayer_name s name p hp]
                exact roll_enabled_current s p hen
              rw [action_roll_eq s name draws p hp]
              by_cases hb : isBust s.rules_variant (rollOf s p draws) = true
              · rw [if_pos hb]
                have hz : AllZero (updatePlayer s name (fun q =>
                    { q with last_roll := some (rollOf s p draws),
                             turn_points := 0 })) := by
                  intro q hq
                  rcases mem_updatePlayer s name _ q hq with ⟨p', hp', he⟩
                  by_cases hc : p'.name = name
                  · rw [he, if_pos hc]
                  · rw [he, if_neg hc]
                    by_contra hne
                    have h2 := ih.2 p' hp' hne
                    rw [hcur] at h2
                    exact hc (Option.some.inj h2.symm)
                constructor
                · rw [map_name_end_turn,
                    map_name_updatePlayer s name
                      (f := fun q => { q with
                        last_roll := some (rollOf s p draws),
                        turn_points := 0 }) (fun q => rfl)]
                  exact ih.1
                · intro q hq hne
                  exact absurd (allZero_end_turn _ hz q hq) hne
              · rw [if_neg hb]
                constructor
                · rw [map_name_updatePlayer s name
                      (f := fun q => { q with
                        last_roll := some (rollOf s p draws),
                        turn_points := q.turn_points + (rollOf s p draws).green,
                        dice_count :=
                          if (rollOf s p draws).yellow + (rollOf s p draws).red = 0
                          then s.starting_dice
                          else (rollOf s p draws).yellow + (rollOf s p draws).red })
                      (fun q => rfl)]
                  exact ih.1
                · intro q hq hne
                  rcases mem_updatePlayer s name _ q hq with ⟨p', hp', he⟩
                  by_cases hc : p'.name = name
                  · have hqname : q.name = name := by
                      rw [he, if_pos hc]
                      exact hc
                    show currentName s = some q.name
                    rw [hqname, hcur]
                  · have hq' : q = p' := by rw [he, if_neg hc]
                    show currentName s = some q.name
                    rw [hq']
                    exact ih.2 p' hp' (hq' ▸ hne)
  | bank s name hr ih =>
      unfold execute_bank
      cases hp : getPlayer s name with
      | none => exact ih
      | some p =>
          dsimp only
          cases hen : is_bank_enabled s p with
          | some r => exact ih
          | none =>
              dsimp only
              have hcur : currentName s = some name := by
                rw [← getPlayer_name s name p hp]
                exact bank_enabled_current s p hen
              unfold action_bank
              rw [hp]
              dsimp only
              have hz : AllZero (updatePlayer s name (fun q =>
                  { q with score := q.score + q.turn_points,
                           turn_points := 0 })) := by
                intro q hq
                rcases mem_updatePlayer s name _ q hq with ⟨p', hp', he⟩
                by_cases hc : p'.name = name
                · rw [he, if_pos hc]
                · rw [he, if_neg hc]
                  by_contra hne
                  have h2 := ih.2 p' hp' hne
                  rw [hcur] at h2
                  exact hc (Option.some.inj h2.symm)
              constructor
              · rw [map_name_end_turn,
                  map_name_updatePlayer s name
                    (f := fun q => { q with
                      score := q.score + q.turn_points,
                      turn_points := 0 }) (fun q => rfl)]
                exact ih.1
              · intro q hq hne
                exact absurd (allZero_end_turn _ hz q hq) hne

/-- C8: in every state reachable from game start through roll and bank
requests (busting, banking, turn handover and round end all happen inside
those operations, and each one zeroes the acting player's turn points before
the turn ends while starting a turn zeroes the incoming player's), any
player holding non-zero turn points is the current player — so at most one
player holds non-zero turn points at any instant. -/
theorem claim_C8_single_accruer (s : GameState) (h : Reachable s) :
    (∀ p ∈ s.players, p.turn_points ≠ 0 → currentName s = some p.name) ∧
    (∀ p ∈ s.players, ∀ q ∈ s.players,
      p.turn_points ≠ 0 → q.turn_points ≠ 0 → p = q) := by
  have hinv := pointsInv_reachable s h
  refine ⟨hinv.2, ?_⟩
  intro p hp q hq hpne hqne
  have h1 := hinv.2 p hp hpne
  have h2 := hinv.2 q hq hqne
  have hname : p.name = q.name := Option.some.inj (h1.symm.trans h2)
  exact List.inj_on_of_nodup_map hinv.1 hp hq hname

/-- Witness for C8: after starting a concrete two-player game and rolling
ten greens for A, A holds 10 turn points, so the invariant pins the current
player to A. -/
theorem claim_C8_single_accruer_witness :
    currentName (execute_roll (on_start
      { players := [⟨"A", false, false, 0, 0, none, 0⟩,
                    ⟨"B", false, false, 0, 0, none, 0⟩],
        turn_order := [], turn_index := 0, round := 0,
        status := "lobby", game_active := false, winner := none,
        target_score := 100, starting_dice := 10,
        rules_variant := .Standard })
      "A" (fun _ => 1)).1 = some "A" :=
  (claim_C8_single_accruer _
      (Reachable.roll _ "A" (fun _ => 1)
        (Reachable.start
          { players := [⟨"A", false, false, 0, 0, none, 0⟩,
                        ⟨"B", false, false, 0, 0, none, 0⟩],
            turn_order := [], turn_index := 0, round := 0,
            status := "lobby", game_active := false, winner := none,
            target_score := 100, starting_dice := 10,
            rules_variant := .Standard }
          (by decide) (by decide)))).1
    ⟨"A", false, false, 10, 10, some ⟨10, 0, 0⟩, 0⟩ (by decide) (by decide)

end TossUp
